import Mathlib

/-! The `zsign.hpp` bridge header.

`Shared/Signing/zsign/zsign.hpp` is a declaration-only header.  It is embedded
here line by line (`zsign_hpp`), together with the two pieces of C/C++ that give
those lines a meaning:

* the conditional-inclusion part of the preprocessor (`#ifndef`, `#ifdef`,
  `#define`, `#endif`, `#include`, `#import`), as a step function on an
  explicit state;
* the declaration grammar the header uses (function prototypes, optionally
  inside an `extern "C"` block), as a parser from tokens to declarations.

The properties below are about the declarations a translation unit obtains
from including the header.
-/

namespace Zsign

/-! ## Tokens and lines -/

/-- Lexical tokens occurring on the declaration lines of the header. -/
inductive Tok where
  | ident (s : String)
  | strLit (s : String)
  | lbrace
  | rbrace
  | lparen
  | rparen
  | asterisk
  | comma
  | semi
  deriving DecidableEq, Repr

/-- One physical line of a header, as the preprocessor classifies it. -/
inductive Line where
  | comment (text : String)
  | blank
  | ifndef (name : String)
  | define (name : String)
  | ifdef (name : String)
  | endif
  | includeSys (file : String)
  | objcImport (file : String)
  | code (toks : List Tok)
  deriving DecidableEq, Repr

open Tok Line

/-- The forty lines of `zsign.hpp`, in order. -/
def zsign_hpp : List Line :=
  [ comment "",
    comment "  zsign.hpp",
    comment "  feather",
    comment "",
    comment "  Created by HAHALOSAH on 5/22/24.",
    comment "",
    blank,
    ifndef "zsign_hpp",
    define "zsign_hpp",
    blank,
    includeSys "stdio.h",
    objcImport "Foundation/Foundation.h",
    blank,
    ifdef "__cplusplus",
    code [ident "extern", strLit "C", lbrace],
    endif,
    blank,
    code [ident "bool", ident "InjectDyLib", lparen, ident "NSString", asterisk, ident "filePath", comma],
    code [ident "NSString", asterisk, ident "dylibPath", comma],
    code [ident "bool", ident "weakInject", comma],
    code [ident "bool", ident "bCreate", rparen, semi],
    blank,
    code [ident "bool", ident "ChangeDylibPath", lparen, ident "NSString", asterisk, ident "filePath", comma],
    code [ident "NSString", asterisk, ident "oldPath", comma],
    code [ident "NSString", asterisk, ident "newPath", rparen, semi],
    blank,
    code [ident "int", ident "zsign", lparen, ident "NSString", asterisk, ident "app", comma],
    code [ident "NSString", asterisk, ident "prov", comma],
    code [ident "NSString", asterisk, ident "key", comma],
    code [ident "NSString", asterisk, ident "pass", comma],
    code [ident "NSString", asterisk, ident "bundleid", comma],
    code [ident "NSString", asterisk, ident "displayname", comma],
    code [ident "NSString", asterisk, ident "bundleversion"],
    code [rparen, semi],
    blank,
    ifdef "__cplusplus",
    code [rbrace],
    endif,
    blank,
    endif ]

/-! ## Conditional inclusion -/

/-- State of the preprocessor while it reads a translation unit. -/
structure PP where
  /-- Names that are currently defined. -/
  defs : List String
  /-- Files already brought in by `#import`, which reads a file at most once. -/
  imported : List String
  /-- System headers read so far, in order. -/
  incs : List String
  /-- Tokens passed on to the compiler so far. -/
  out : List Tok
  deriving DecidableEq, Repr

/-- Whether lines are currently passed on.  Each entry of the stack already
includes the enclosing conditionals, so the innermost one decides. -/
def active (stack : List Bool) : Bool := stack.headD true

/-- Process one line.  `sys f` lists the names a system header `f` defines;
the result is `none` for an `#endif` without an open conditional. -/
def step (sys : String → List String) (s : PP) (stack : List Bool) :
    Line → Option (PP × List Bool)
  | comment _ => some (s, stack)
  | blank => some (s, stack)
  | ifndef m => some (s, (active stack && !(s.defs.contains m)) :: stack)
  | ifdef m => some (s, (active stack && s.defs.contains m) :: stack)
  | endif =>
    match stack with
    | [] => none
    | _ :: rest => some (s, rest)
  | define m =>
    some (if active stack then { s with defs := m :: s.defs } else s, stack)
  | includeSys f =>
    some (if active stack then
      { s with defs := sys f ++ s.defs, incs := s.incs ++ [f] } else s, stack)
  | objcImport f =>
    some (if active stack && !(s.imported.contains f) then
      { s with defs := sys f ++ s.defs, imported := f :: s.imported, incs := s.incs ++ [f] }
      else s, stack)
  | code toks =>
    some (if active stack then { s with out := s.out ++ toks } else s, stack)

/-- Process the lines of a file in order. -/
def run (sys : String → List String) : PP → List Bool → List Line → Option (PP × List Bool)
  | s, stack, [] => some (s, stack)
  | s, stack, l :: ls =>
    match step sys s stack l with
    | none => none
    | some (s', stack') => run sys s' stack' ls

/-- Include a file at the top level: its conditionals must be closed at its end. -/
def includeFile (sys : String → List String) (s : PP) (file : List Line) : Option PP :=
  match run sys s [] file with
  | some (s', []) => some s'
  | _ => none

/-- Include `zsign.hpp` the given number of times in a row. -/
def includeTimes (sys : String → List String) : Nat → PP → Option PP
  | 0, s => some s
  | n + 1, s => (includeFile sys s zsign_hpp).bind (includeTimes sys n)

/-! ## Declarations -/

/-- The types that can be written with a name and pointer stars. -/
inductive CType where
  | named (n : String)
  | ptr (t : CType)
  deriving DecidableEq, Repr

/-- Language linkage of a declared function. -/
inductive Linkage where
  | c
  | cxx
  deriving DecidableEq, Repr

/-- A parameter of a prototype. -/
structure Param where
  ty : CType
  name : String
  deriving DecidableEq, Repr

/-- A function prototype. -/
structure FunDecl where
  ret : CType
  name : String
  params : List Param
  linkage : Linkage
  deriving DecidableEq, Repr

/-- Pointer stars followed by the declared name. -/
def parseStars : CType → List Tok → Option (CType × String)
  | t, [ident n] => some (t, n)
  | t, asterisk :: rest => parseStars (CType.ptr t) rest
  | _, _ => none

/-- A type name, pointer stars and the declared name. -/
def parseTyped : List Tok → Option (CType × String)
  | ident t :: rest => parseStars (CType.named t) rest
  | _ => none

/-- Split a token list at its commas. -/
def splitCommas : List Tok → List (List Tok)
  | [] => [[]]
  | comma :: rest => [] :: splitCommas rest
  | t :: rest =>
    match splitCommas rest with
    | [] => [[t]]
    | g :: gs => (t :: g) :: gs

/-- Parse each parameter of a parameter list. -/
def parseParams : List (List Tok) → Option (List Param)
  | [] => some []
  | g :: gs =>
    match parseTyped g, parseParams gs with
    | some (ty, n), some ps => some (⟨ty, n⟩ :: ps)
    | _, _ => none

/-- Parse `ret name ( params )`, the tokens of a prototype before its `;`. -/
def parsePrototype (link : Linkage) (toks : List Tok) : Option FunDecl :=
  match toks.dropWhile (fun t => t != lparen) with
  | lparen :: tail =>
    match tail.reverse with
    | rparen :: revArgs =>
      match parseTyped (toks.takeWhile (fun t => t != lparen)),
            parseParams (splitCommas revArgs.reverse) with
      | some (ret, name), some ps => some ⟨ret, name, ps, link⟩
      | _, _ => none
    | _ => none
  | _ => none

/-- Parse the top level of a translation unit.  `blocks` holds the linkage of
the open linkage blocks and `cur` the tokens of the declaration being read, in
reverse.  In C there is no linkage specification, every function has C linkage;
in C++ a function outside any block has C++ linkage. -/
def parseTop (cpp : Bool) : List Tok → List Linkage → List Tok → Option (List FunDecl)
  | [], [], [] => some []
  | [], _, _ => none
  | t :: rest, blocks, cur =>
    match t, cur with
    | semi, _ =>
      match parsePrototype (blocks.headD (if cpp then Linkage.cxx else Linkage.c)) cur.reverse,
            parseTop cpp rest blocks [] with
      | some d, some ds => some (d :: ds)
      | _, _ => none
    | lbrace, [strLit "C", ident "extern"] =>
      if cpp then parseTop cpp rest (Linkage.c :: blocks) [] else none
    | rbrace, [] =>
      match blocks with
      | [] => none
      | _ :: outer => parseTop cpp rest outer []
    | _, _ => parseTop cpp rest blocks (t :: cur)

/-! ## Translation units -/

/-- The state a translation unit starts in: the compiler predefines
`__cplusplus` in C++ mode, `predef` are further names defined beforehand. -/
def initial (cpp : Bool) (predef : List String) : PP :=
  { defs := (if cpp then ["__cplusplus"] else []) ++ predef,
    imported := [], incs := [], out := [] }

/-- The tokens a translation unit made of `n` inclusions of `zsign.hpp` hands
to the compiler. -/
def unitTokens (sys : String → List String) (cpp : Bool) (predef : List String) (n : Nat) :
    Option (List Tok) :=
  (includeTimes sys n (initial cpp predef)).map PP.out

/-- Compile a translation unit made of `n` inclusions of `zsign.hpp`. -/
def compileUnit (sys : String → List String) (cpp : Bool) (predef : List String) (n : Nat) :
    Option (List FunDecl) :=
  (unitTokens sys cpp predef n).bind fun toks => parseTop cpp toks [] []

/-- The environment of a translation unit that has not seen the header yet
and whose `__cplusplus` agrees with the language mode: the guard name is not
predefined, and when compiling C neither the predefined names nor a system
header define `__cplusplus`. -/
def Conforming (sys : String → List String) (cpp : Bool) (predef : List String) : Prop :=
  "zsign_hpp" ∉ predef ∧
    (cpp = false → "__cplusplus" ∉ predef ∧ ∀ f, "__cplusplus" ∉ sys f)

/-- A sample assignment of defined names to the two system headers. -/
def sampleSys (f : String) : List String :=
  if f = "stdio.h" then ["EOF", "BUFSIZ"] else ["YES", "NO"]

/-- A pointer to an `NSString` object, the string handle of the interface. -/
def nsString : CType := CType.ptr (CType.named "NSString")

/-- The C type `bool`. -/
def cBool : CType := CType.named "bool"

/-- The C type `int`. -/
def cInt : CType := CType.named "int"

/-! ## Reading the header once -/

theorem includeFile_guarded (sys : String → List String) (s : PP)
    (h : "zsign_hpp" ∈ s.defs) : includeFile sys s zsign_hpp = some s := by
  simp [includeFile, zsign_hpp, run, step, active, h]

theorem includeFile_defines (sys : String → List String) (s : PP) :
    ∃ s', includeFile sys s zsign_hpp = some s' ∧ "zsign_hpp" ∈ s'.defs := by
  by_cases h : "zsign_hpp" ∈ s.defs
  · exact ⟨s, includeFile_guarded sys s h, h⟩
  · by_cases hi : "Foundation/Foundation.h" ∈ s.imported <;>
    by_cases hc : "__cplusplus" ∈ s.defs <;>
    by_cases h1 : "__cplusplus" ∈ sys "stdio.h" <;>
    by_cases h2 : "__cplusplus" ∈ sys "Foundation/Foundation.h" <;>
    simp [includeFile, zsign_hpp, run, step, active, h, hi, hc, h1, h2]

theorem unitTokens_once (sys : String → List String) (cpp : Bool) (predef : List String)
    (h : Conforming sys cpp predef) :
    unitTokens sys cpp predef 1 = unitTokens (fun _ => []) cpp [] 1 := by
  obtain ⟨hg, hc⟩ := h
  cases cpp
  · obtain ⟨hp, hs⟩ := hc rfl
    simp [unitTokens, includeTimes, initial, includeFile, zsign_hpp, run, step, active, hg, hp, hs]
  · simp [unitTokens, includeTimes, initial, includeFile, zsign_hpp, run, step, active, hg]

theorem compileUnit_once (sys : String → List String) (cpp : Bool) (predef : List String)
    (h : Conforming sys cpp predef) :
    compileUnit sys cpp predef 1 = compileUnit (fun _ => []) cpp [] 1 := by
  simp only [compileUnit, unitTokens_once sys cpp predef h]

theorem conforming_sample (cpp : Bool) : Conforming sampleSys cpp ["DEBUG"] := by
  refine ⟨by decide, fun _ => ⟨by decide, fun f => ?_⟩⟩
  unfold sampleSys
  split <;> decide

theorem includeTimes_guarded (sys : String → List String) (n : Nat) (s : PP)
    (h : "zsign_hpp" ∈ s.defs) : includeTimes sys n s = some s := by
  induction n with
  | zero => rfl
  | succ k ih => simp [includeTimes, includeFile_guarded sys s h, ih]

theorem includeTimes_succ (sys : String → List String) (n : Nat) (s : PP) :
    includeTimes sys (n + 1) s = includeFile sys s zsign_hpp := by
  obtain ⟨s', hs', hg⟩ := includeFile_defines sys s
  simp [includeTimes, hs', includeTimes_guarded sys n s' hg]

/-! ## The declared interface -/

/-- C4: a translation unit that includes the header obtains exactly three
function declarations, named `InjectDyLib`, `ChangeDylibPath` and `zsign` in
this order, and every one of them has C linkage; compiled as C++, the tokens
the header emits are one `extern "C"` block around prototypes that would
otherwise have C++ linkage. -/
theorem header_declares_three_operations (sys : String → List String) (cpp : Bool)
    (predef : List String) (h : Conforming sys cpp predef) :
    ∃ ds, compileUnit sys cpp predef 1 = some ds ∧
      ds.map FunDecl.name = ["InjectDyLib", "ChangeDylibPath", "zsign"] ∧
      (∀ d ∈ ds, d.linkage = Linkage.c) ∧
      (cpp = true → ∃ body ds',
        unitTokens sys cpp predef 1
          = some ([ident "extern", strLit "C", lbrace] ++ body ++ [rbrace]) ∧
        lbrace ∉ body ∧ rbrace ∉ body ∧
        parseTop true body [] [] = some ds' ∧
        ds'.map FunDecl.name = ds.map FunDecl.name ∧
        ∀ d ∈ ds', d.linkage = Linkage.cxx) := by
  rw [compileUnit_once sys cpp predef h, unitTokens_once sys cpp predef h]
  refine ⟨(compileUnit (fun _ => []) cpp [] 1).getD [], ?_, ?_, ?_, ?_⟩
  · cases cpp <;> decide
  · cases cpp <;> decide
  · cases cpp <;> decide
  · intro hc
    subst hc
    refine ⟨(((unitTokens (fun _ => []) true [] 1).getD []).drop 3).dropLast,
      (parseTop true (((unitTokens (fun _ => []) true [] 1).getD []).drop 3).dropLast
        [] []).getD [], ?_, ?_, ?_, ?_, ?_, ?_⟩ <;> decide

/-- C5: `InjectDyLib` is declared once, returning `bool`, with exactly four
parameters in this order: `NSString *filePath`, `NSString *dylibPath`,
`bool weakInject`, `bool bCreate`. -/
theorem InjectDyLib_signature (sys : String → List String) (cpp : Bool)
    (predef : List String) (h : Conforming sys cpp predef) :
    ∃ ds, compileUnit sys cpp predef 1 = some ds ∧
      ds.filter (fun d => d.name = "InjectDyLib") =
        [⟨cBool, "InjectDyLib",
          [⟨nsString, "filePath"⟩, ⟨nsString, "dylibPath"⟩,
           ⟨cBool, "weakInject"⟩, ⟨cBool, "bCreate"⟩], Linkage.c⟩] := by
  rw [compileUnit_once sys cpp predef h]
  refine ⟨(compileUnit (fun _ => []) cpp [] 1).getD [], ?_, ?_⟩ <;> cases cpp <;> decide

/-- C6: `ChangeDylibPath` is declared once, returning `bool`, with exactly
three parameters in this order, all string handles: `NSString *filePath`,
`NSString *oldPath`, `NSString *newPath`. -/
theorem ChangeDylibPath_signature (sys : String → List String) (cpp : Bool)
    (predef : List String) (h : Conforming sys cpp predef) :
    ∃ ds, compileUnit sys cpp predef 1 = some ds ∧
      ds.filter (fun d => d.name = "ChangeDylibPath") =
        [⟨cBool, "ChangeDylibPath",
          [⟨nsString, "filePath"⟩, ⟨nsString, "oldPath"⟩, ⟨nsString, "newPath"⟩],
          Linkage.c⟩] := by
  rw [compileUnit_once sys cpp predef h]
  refine ⟨(compileUnit (fun _ => []) cpp [] 1).getD [], ?_, ?_⟩ <;> cases cpp <;> decide

/-- C7: `zsign` is declared once, returning `int`, with exactly seven
parameters in this order, all string handles: `app`, `prov`, `key`, `pass`,
`bundleid`, `displayname`, `bundleversion`. -/
theorem zsign_signature (sys : String → List String) (cpp : Bool)
    (predef : List String) (h : Conforming sys cpp predef) :
    ∃ ds, compileUnit sys cpp predef 1 = some ds ∧
      ds.filter (fun d => d.name = "zsign") =
        [⟨cInt, "zsign",
          [⟨nsString, "app"⟩, ⟨nsString, "prov"⟩, ⟨nsString, "key"⟩, ⟨nsString, "pass"⟩,
           ⟨nsString, "bundleid"⟩, ⟨nsString, "displayname"⟩, ⟨nsString, "bundleversion"⟩],
          Linkage.c⟩] := by
  rw [compileUnit_once sys cpp predef h]
  refine ⟨(compileUnit (fun _ => []) cpp [] 1).getD [], ?_, ?_⟩ <;> cases cpp <;> decide

/-- C8: every declared operation returns `bool` or `int`, and every parameter
of every operation is either a string handle (`NSString *`) or a `bool` passed
by value; no parameter is a pointer to a pointer or to an error object. -/
theorem results_are_return_codes (sys : String → List String) (cpp : Bool)
    (predef : List String) (h : Conforming sys cpp predef) :
    ∃ ds, compileUnit sys cpp predef 1 = some ds ∧
      ds.map FunDecl.name = ["InjectDyLib", "ChangeDylibPath", "zsign"] ∧
      ∀ d ∈ ds, (d.ret = cBool ∨ d.ret = cInt) ∧
        ∀ p ∈ d.params, p.ty = nsString ∨ p.ty = cBool := by
  rw [compileUnit_once sys cpp predef h]
  refine ⟨(compileUnit (fun _ => []) cpp [] 1).getD [], ?_, ?_, ?_⟩ <;> cases cpp <;> decide

/-- C9: including the header is idempotent.  In a state where the guard name
`zsign_hpp` is defined an inclusion changes nothing; an inclusion always
succeeds and leaves the guard defined; hence from every state `n ≥ 2`
inclusions in a row end in the state of one inclusion, and a translation unit
with `n` inclusions compiles to the declarations of a unit with one. -/
theorem include_idempotent (sys : String → List String) (s : PP) (cpp : Bool)
    (predef : List String) (n : Nat) (hn : 2 ≤ n) :
    (∀ t : PP, "zsign_hpp" ∈ t.defs → includeFile sys t zsign_hpp = some t) ∧
    (∃ s', includeFile sys s zsign_hpp = some s' ∧ "zsign_hpp" ∈ s'.defs ∧
      includeTimes sys 1 s = some s' ∧ includeTimes sys n s = some s') ∧
    compileUnit sys cpp predef n = compileUnit sys cpp predef 1 := by
  obtain ⟨k, rfl⟩ : ∃ k, n = k + 1 := ⟨n - 1, by omega⟩
  refine ⟨includeFile_guarded sys, ?_, ?_⟩
  · obtain ⟨s', hs', hg⟩ := includeFile_defines sys s
    exact ⟨s', hs', hg, by rw [includeTimes_succ, hs'], by rw [includeTimes_succ, hs']⟩
  · simp only [compileUnit, unitTokens, includeTimes_succ]

/-! ## Instances at a sample environment -/

theorem header_declares_three_operations_witness :
    Conforming sampleSys true ["DEBUG"] ∧
    ∃ ds, compileUnit sampleSys true ["DEBUG"] 1 = some ds ∧
      ds.map FunDecl.name = ["InjectDyLib", "ChangeDylibPath", "zsign"] ∧
      (∀ d ∈ ds, d.linkage = Linkage.c) ∧
      (true = true → ∃ body ds',
        unitTokens sampleSys true ["DEBUG"] 1
          = some ([ident "extern", strLit "C", lbrace] ++ body ++ [rbrace]) ∧
        lbrace ∉ body ∧ rbrace ∉ body ∧
        parseTop true body [] [] = some ds' ∧
        ds'.map FunDecl.name = ds.map FunDecl.name ∧
        ∀ d ∈ ds', d.linkage = Linkage.cxx) :=
  ⟨conforming_sample true,
    header_declares_three_operations sampleSys true ["DEBUG"] (conforming_sample true)⟩

theorem InjectDyLib_signature_witness :
    Conforming sampleSys false ["DEBUG"] ∧
    ∃ ds, compileUnit sampleSys false ["DEBUG"] 1 = some ds ∧
      ds.filter (fun d => d.name = "InjectDyLib") =
        [⟨cBool, "InjectDyLib",
          [⟨nsString, "filePath"⟩, ⟨nsString, "dylibPath"⟩,
           ⟨cBool, "weakInject"⟩, ⟨cBool, "bCreate"⟩], Linkage.c⟩] :=
  ⟨conforming_sample false,
    InjectDyLib_signature sampleSys false ["DEBUG"] (conforming_sample false)⟩

theorem ChangeDylibPath_signature_witness :
    Conforming sampleSys true ["DEBUG"] ∧
    ∃ ds, compileUnit sampleSys true ["DEBUG"] 1 = some ds ∧
      ds.filter (fun d => d.name = "ChangeDylibPath") =
        [⟨cBool, "ChangeDylibPath",
          [⟨nsString, "filePath"⟩, ⟨nsString, "oldPath"⟩, ⟨nsString, "newPath"⟩],
          Linkage.c⟩] :=
  ⟨conforming_sample true,
    ChangeDylibPath_signature sampleSys true ["DEBUG"] (conforming_sample true)⟩

theorem zsign_signature_witness :
    Conforming sampleSys false ["DEBUG"] ∧
    ∃ ds, compileUnit sampleSys false ["DEBUG"] 1 = some ds ∧
      ds.filter (fun d => d.name = "zsign") =
        [⟨cInt, "zsign",
          [⟨nsString, "app"⟩, ⟨nsString, "prov"⟩, ⟨nsString, "key"⟩, ⟨nsString, "pass"⟩,
           ⟨nsString, "bundleid"⟩, ⟨nsString, "displayname"⟩, ⟨nsString, "bundleversion"⟩],
          Linkage.c⟩] :=
  ⟨conforming_sample false,
    zsign_signature sampleSys false ["DEBUG"] (conforming_sample false)⟩

theorem results_are_return_codes_witness :
    Conforming sampleSys true ["DEBUG"] ∧
    ∃ ds, compileUnit sampleSys true ["DEBUG"] 1 = some ds ∧
      ds.map FunDecl.name = ["InjectDyLib", "ChangeDylibPath", "zsign"] ∧
      ∀ d ∈ ds, (d.ret = cBool ∨ d.ret = cInt) ∧
        ∀ p ∈ d.params, p.ty = nsString ∨ p.ty = cBool :=
  ⟨conforming_sample true,
    results_are_return_codes sampleSys true ["DEBUG"] (conforming_sample true)⟩

theorem include_idempotent_witness :
    2 ≤ 3 ∧
    (∀ t : PP, "zsign_hpp" ∈ t.defs → includeFile sampleSys t zsign_hpp = some t) ∧
    (∃ s', includeFile sampleSys (initial true ["DEBUG"]) zsign_hpp = some s' ∧
      "zsign_hpp" ∈ s'.defs ∧
      includeTimes sampleSys 1 (initial true ["DEBUG"]) = some s' ∧
      includeTimes sampleSys 3 (initial true ["DEBUG"]) = some s') ∧
    compileUnit sampleSys true ["DEBUG"] 3 = compileUnit sampleSys true ["DEBUG"] 1 :=
  ⟨by decide,
    include_idempotent sampleSys (initial true ["DEBUG"]) true ["DEBUG"] 3 (by decide)⟩

end Zsign
